import Mathlib

/-!
Verification development for the healthchecks salt formula
(`_modules/healthchecks.py`, `_states/healthchecks.py`,
`_utils/healthchecksutil.py`).

The execution module is shallowly embedded: every function is translated
into an executable Lean definition.  Effects (HTTP calls against the
monitoring API, peer publication, the salt URL cache) are made explicit by
threading a state value `St` and recording externally visible calls in an
effect trace.  Python exceptions are modelled by `Except Err`; the
distinction between the exception classes caught by
`get_ping_url` (`CommandExecutionError`, `SaltInvocationError`) and
uncaught Python faults (`KeyError`, `TypeError`) is kept via the `Err`
constructors.
-/

namespace Hlcks

/-- A notification integration as returned by the monitoring API
(`list_channels` accesses the keys `id`, `kind` and `name`). -/
structure Channel where
  id : String
  kind : String
  name : String
deriving DecidableEq, Repr

/-- Wire values stored in a check's fields / a write payload.  The module
sends strings, integers and booleans; `list` covers the case where a
falsy Python list (e.g. `tags=[]`) is passed through unjoined. -/
inductive Val where
  | str : String → Val
  | int : Int → Val
  | bool : Bool → Val
  | list : List String → Val
deriving DecidableEq, Repr

/-- A check as returned by the monitoring API: a dictionary of fields
(keyed by the parameter names used in `parse_check_params`) plus the
server-derived ping URL. -/
structure Check where
  fields : List (String × Val)
  ping_url : String
deriving DecidableEq, Repr

/-- A Python argument that may be a single string or a list of strings
(the module coerces via `if not isinstance(x, list): x = [x]`). -/
inductive StrOrList where
  | str : String → StrOrList
  | list : List String → StrOrList
deriving DecidableEq, Repr

/-- Python truthiness of a string-or-list value. -/
def StrOrList.truthy : StrOrList → Bool
  | .str s => s != ""
  | .list l => !l.isEmpty

/-- Python truthiness of an optional string (`None` and `""` are falsy). -/
def pyTruthyStr : Option String → Bool
  | none => false
  | some s => s != ""

/-- Python truthiness of an optional integer (`None` and `0` are falsy). -/
def pyTruthyInt : Option Int → Bool
  | none => false
  | some t => t != 0

/-- One item of the `channels` argument: either a channel identifier
string, or a dict interpreted as keyword arguments to `list_channels`
(`kind`, `name`). -/
inductive ChanItem where
  | id : String → ChanItem
  | query : Option StrOrList → Option StrOrList → ChanItem
deriving DecidableEq, Repr

/-- The raw `channels` argument: a plain string (e.g. a wildcard or a
single id) or a list of items. -/
inductive ChannelsArg where
  | str : String → ChannelsArg
  | list : List ChanItem → ChannelsArg
deriving DecidableEq, Repr

/-- The check parameters accepted by `write_check` / `parse_check_params` /
`get_managed_changes` (each `none` models an absent keyword argument). -/
structure CheckParams where
  tags : Option StrOrList := none
  desc : Option String := none
  timeout : Option Int := none
  grace : Option Int := none
  schedule : Option String := none
  tz : Option String := none
  manual_resume : Option Bool := none
  methods : Option String := none
  channels : Option ChannelsArg := none
  start_kw : Option StrOrList := none
  success_kw : Option StrOrList := none
  failure_kw : Option StrOrList := none
  filter_subject : Option Bool := none
  filter_body : Option Bool := none
deriving DecidableEq, Repr

/-- Errors.  `invocation` models `SaltInvocationError`, `execution` models
`CommandExecutionError` (including the wrapped `Hlcks*` API errors), and
`pyError` models Python exceptions that no handler in this module catches
(`KeyError`, `TypeError`). -/
inductive Err where
  | invocation : String → Err
  | execution : String → Err
  | pyError : String → Err
deriving DecidableEq, Repr

/-- Whether `except (CommandExecutionError, SaltInvocationError)` in
`get_ping_url` catches this error. -/
def Err.handled : Err → Bool
  | .invocation _ => true
  | .execution _ => true
  | .pyError _ => false

/-- The message carried by an error (`str(err)`). -/
def Err.msg : Err → String
  | .invocation m => m
  | .execution m => m
  | .pyError m => m

/-- Externally visible effects, recorded in order of occurrence. -/
inductive Eff where
  | apiListChecks
  | apiListChannels
  | apiWrite : List (String × Val) → Eff
  | publishCall : String → String → Eff
deriving DecidableEq, Repr

/-- Whether an effect is a write against the monitoring API. -/
def Eff.isWrite : Eff → Bool
  | .apiWrite _ => true
  | _ => false

/-- The monitoring API's remote state plus its availability, and the data
needed to mint a ping URL for a newly created check.  The server itself is
an external collaborator of the repository; its behaviour here follows the
spec's interface description (create-or-update keyed on `name`, ping URL
of the form `<base>/ping/<uuid>`).  When `apiFail` is set, every API
request fails with HTTP 503 (`HlcksUnavailableError`). -/
structure World where
  checks : List Check
  channels : List Channel
  apiFail : Option String
  baseUrl : String
  nextUuid : String
deriving DecidableEq, Repr

/-- The full mutable state threaded through the module: remote world, the
salt URL cache (an association list keyed by bank and key, most recent
entry first) and the effect trace. -/
structure St where
  world : World
  cache : List ((String × String) × Option String)
  trace : List Eff
deriving DecidableEq, Repr

/-- The fixed cache bank used by `get_ping_url`. -/
def cbank : String := "hlcks/check_returns"

/-- `salt.cache.store(bank, key, value)`: overwrites any previous entry. -/
def cacheStore (st : St) (bank key : String) (v : Option String) : St :=
  { st with cache := ((bank, key), v) :: st.cache }

/-- Lookup in the cache model (`contains` = `isSome`, `fetch` = the value). -/
def cacheGet (bank key : String) : List ((String × String) × Option String) → Option (Option String)
  | [] => none
  | ((b, k), v) :: rest => if b = bank ∧ k = key then some v else cacheGet bank key rest

/-- Dictionary access on a check's field list. -/
def lookupKV (k : String) : List (String × Val) → Option Val
  | [] => none
  | (k', v) :: rest => if k' = k then some v else lookupKV k rest

/-- `client.get("checks/")` as used by `list_checks`: on failure the
`HlcksException` is re-raised as
`CommandExecutionError(f"HlcksUnavailableError: ...")`. -/
def apiGetChecks (st : St) : Except Err (List Check) × St :=
  let st1 : St := { st with trace := st.trace ++ [.apiListChecks] }
  match st.world.apiFail with
  | some msg => (.error (.execution ("HlcksUnavailableError: " ++ msg)), st1)
  | none => (.ok st.world.checks, st1)

/-- The lookup loop of `fetch_check`: scan the listed checks for the first
one whose `name` field equals the requested name.  Accessing a missing
`name` key would raise an uncaught `KeyError`. -/
def find_check_by_name (name : String) : List Check → Except Err (Option Check)
  | [] => .ok none
  | c :: rest =>
    match lookupKV "name" c.fields with
    | none => .error (.pyError "KeyError: name")
    | some v => if v = .str name then .ok (some c) else find_check_by_name name rest

/-- `fetch_check(name=...)` (the name path used by `get_ping_url` and
`get_managed_changes`; `uuid` is always `None` there). -/
def fetch_check (name : String) (st : St) : Except Err (Option Check) × St :=
  match apiGetChecks st with
  | (.error e, st1) => (.error e, st1)
  | (.ok cs, st1) =>
    match find_check_by_name name cs with
    | .error e => (.error e, st1)
    | .ok r => (.ok r, st1)

/-- The `if not isinstance(x, list): x = [x]` coercion applied to the
`kind` / `name` arguments of `list_channels`: `None` becomes `[None]`. -/
def wrapArg : Option StrOrList → List (Option String)
  | none => [none]
  | some (.str s) => [some s]
  | some (.list l) => l.map some

/-- `list_channels(kind=..., name=...)`.  Note the source's
`if not kind or name: return channels` test is applied after the
`[None]`-wrapping, exactly as written. -/
def list_channels (kindA nameA : Option StrOrList) (st : St) :
    Except Err (List Channel) × St :=
  let nameL := wrapArg nameA
  let kindL := wrapArg kindA
  let st1 : St := { st with trace := st.trace ++ [.apiListChannels] }
  match st.world.apiFail with
  | some msg => (.error (.execution ("HlcksUnavailableError: " ++ msg)), st1)
  | none =>
    if kindL.isEmpty || !nameL.isEmpty then (.ok st.world.channels, st1)
    else
      (.ok (st.world.channels.filter (fun c =>
        !(!kindL.isEmpty && !kindL.contains (some c.kind)) &&
        !(!nameL.isEmpty && !nameL.contains (some c.name)))), st1)

/-- The channel-resolution loop of `parse_check_params`: identifier items
pass through, dict items are expanded to the ids returned by
`list_channels(**item)`. -/
def resolveChannels (items : List ChanItem) (st : St) : Except Err (List String) × St :=
  match items with
  | [] => (.ok [], st)
  | .id s :: rest =>
    match resolveChannels rest st with
    | (.ok l, st1) => (.ok (s :: l), st1)
    | (.error e, st1) => (.error e, st1)
  | .query k n :: rest =>
    match list_channels k n st with
    | (.error e, st1) => (.error e, st1)
    | (.ok cs, st1) =>
      match resolveChannels rest st1 with
      | (.ok l, st2) => (.ok (cs.map Channel.id ++ l), st2)
      | (.error e, st2) => (.error e, st2)

/-- The `if x: ... join` normalisation applied to `tags` (separator `" "`)
and to the keyword lists (separator `","`).  Falsy inputs pass through
unjoined, absent inputs stay absent. -/
def parseJoined (sep : String) : Option StrOrList → Option Val
  | none => none
  | some (.str s) => if s = "" then some (.str "") else some (.str s)
  | some (.list l) => if l.isEmpty then some (.list []) else some (.str (String.intercalate sep l))

/-- The `channels` normalisation of `parse_check_params` (effectful due to
`list_channels` lookups for dict items). -/
def parseChannels (arg : Option ChannelsArg) (st : St) : Except Err (Option Val) × St :=
  match arg with
  | none => (.ok none, st)
  | some (.str s) =>
    if s = "" then (.ok (some (.str s)), st)
    else
      match resolveChannels [.id s] st with
      | (.error e, st1) => (.error e, st1)
      | (.ok ids, st1) => (.ok (some (.str (String.intercalate "," ids))), st1)
  | some (.list l) =>
    if l.isEmpty then (.ok (some (.list [])), st)
    else
      match resolveChannels l st with
      | (.error e, st1) => (.error e, st1)
      | (.ok ids, st1) => (.ok (some (.str (String.intercalate "," ids))), st1)

/-- The final payload-building loop of `parse_check_params`: include each
parameter the caller set, otherwise fall back to `defaults` when given. -/
def buildPayload (defaults : Option (List (String × Val))) :
    List (String × Option Val) → List (String × Val)
  | [] => []
  | (k, some v) :: rest => (k, v) :: buildPayload defaults rest
  | (k, none) :: rest =>
    match defaults with
    | none => buildPayload defaults rest
    | some d =>
      match lookupKV k d with
      | some v => (k, v) :: buildPayload defaults rest
      | none => buildPayload defaults rest

/-- `parse_check_params`.  Validates `methods`, normalises list-valued
parameters, enforces the schedule/timeout and timeout/tz exclusion rules,
then assembles the payload in the source's parameter order. -/
def parse_check_params (name : Option String) (p : CheckParams)
    (defaults : Option (List (String × Val))) (st : St) :
    Except Err (List (String × Val)) × St :=
  if pyTruthyStr p.methods && !(p.methods == some "" || p.methods == some "POST") then
    (.error (.invocation "methods must be either an empty string or POST, if set"), st)
  else
    match parseChannels p.channels st with
    | (.error e, st1) => (.error e, st1)
    | (.ok chanV, st1) =>
      let timeout := if pyTruthyStr p.schedule && pyTruthyInt p.timeout then none else p.timeout
      let tz := if pyTruthyInt timeout && pyTruthyStr p.tz then none else p.tz
      (.ok (buildPayload defaults [
        ("name", name.map .str),
        ("tags", parseJoined " " p.tags),
        ("desc", p.desc.map .str),
        ("timeout", timeout.map .int),
        ("grace", p.grace.map .int),
        ("schedule", p.schedule.map .str),
        ("tz", tz.map .str),
        ("manual_resume", p.manual_resume.map .bool),
        ("methods", p.methods.map .str),
        ("channels", chanV),
        ("start_kw", parseJoined "," p.start_kw),
        ("success_kw", parseJoined "," p.success_kw),
        ("failure_kw", parseJoined "," p.failure_kw),
        ("filter_subject", p.filter_subject.map .bool),
        ("filter_body", p.filter_body.map .bool)]), st1)

/-- The reconciliation outcome of `get_managed_changes`: either the
"to be created" marker or a per-parameter diff list. -/
inductive Changes where
  | created : String → Changes
  | diffs : List (String × Val × Val) → Changes
deriving DecidableEq, Repr

/-- Python truthiness of the `changes` dict. -/
def Changes.truthy : Changes → Bool
  | .created _ => true
  | .diffs l => !l.isEmpty

/-- The diff loop of `get_managed_changes`: for each parsed parameter,
compare against the current remote value; a missing key on the current
check would raise an uncaught `KeyError`. -/
def computeDiff (current : List (String × Val)) :
    List (String × Val) → Except Err (List (String × Val × Val))
  | [] => .ok []
  | (param, val) :: rest =>
    match lookupKV param current with
    | none => .error (.pyError ("KeyError: " ++ param))
    | some old =>
      match computeDiff current rest with
      | .error e => .error e
      | .ok l => .ok (if old = val then l else (param, old, val) :: l)

/-- `get_managed_changes`: fetch the current check, then either mark it
"to be created" or diff the parsed desired parameters against it. -/
def get_managed_changes (name : String) (p : CheckParams) (st : St) :
    Except Err Changes × St :=
  match fetch_check name st with
  | (.error e, st1) => (.error e, st1)
  | (.ok none, st1) => (.ok (.created name), st1)
  | (.ok (some current), st1) =>
    match parse_check_params (some name) p none st1 with
    | (.error e, st2) => (.error e, st2)
    | (.ok payload, st2) =>
      match computeDiff current.fields payload with
      | .error e => (.error e, st2)
      | .ok l => (.ok (.diffs l), st2)

/-- Set an existing field of a check to a new value. -/
def setField (fields : List (String × Val)) (k : String) (v : Val) : List (String × Val) :=
  fields.map (fun e => if e.1 = k then (k, v) else e)

/-- Server-side update semantics for one field: overwrite when present,
append when absent. -/
def upsertField (fields : List (String × Val)) (k : String) (v : Val) : List (String × Val) :=
  if (lookupKV k fields).isSome then setField fields k v else fields ++ [(k, v)]

/-- Server-side application of a write payload to a check's fields. -/
def updateFields (fields : List (String × Val)) (payload : List (String × Val)) :
    List (String × Val) :=
  payload.foldl (fun fs kv => upsertField fs kv.1 kv.2) fields

/-- The monitoring server's handling of `POST checks/` with
`unique=["name"]` on the existing check list: update the first check whose
`name` matches the payload's, or signal that none matched. -/
def upsertList (payload : List (String × Val)) : List Check → Option (Check × List Check)
  | [] => none
  | c :: rest =>
    if lookupKV "name" c.fields = lookupKV "name" payload then
      let c' : Check := { c with fields := updateFields c.fields payload }
      some (c', c' :: rest)
    else
      match upsertList payload rest with
      | some (c', rest') => some (c', c :: rest')
      | none => none

/-- The monitoring server's create-or-update operation (external
collaborator; behaviour as described by the spec's interface section):
on create, the check is appended with a fresh ping URL
`<base>/ping/<uuid>`. -/
def serverUpsert (payload : List (String × Val)) (w : World) : Check × World :=
  match upsertList payload w.checks with
  | some (c', checks') => (c', { w with checks := checks' })
  | none =>
    let c : Check := { fields := payload, ping_url := w.baseUrl ++ "/ping/" ++ w.nextUuid }
    (c, { w with checks := w.checks ++ [c] })

/-- `write_check`: parse the parameters and `POST` the payload (with the
implicit `unique=["name"]` upsert key) to the API. -/
def write_check (name : String) (p : CheckParams) (st : St) : Except Err Check × St :=
  match parse_check_params (some name) p none st with
  | (.error e, st1) => (.error e, st1)
  | (.ok payload, st1) =>
    let st2 : St := { st1 with trace := st1.trace ++ [.apiWrite payload] }
    match st2.world.apiFail with
    | some msg => (.error (.execution ("HlcksUnavailableError: " ++ msg)), st2)
    | none =>
      let r := serverUpsert payload st2.world
      (.ok r.1, { st2 with world := r.2 })

/-- An issuance policy as resolved by `_get_policy`: an optional `minions`
matcher plus parameter overrides (`kwargs.update(policy)` merges them over
the caller's parameters; the `minions` key is popped before the merge). -/
structure Policy where
  minions : Option String := none
  overrides : CheckParams := {}

/-- A value returned by a peer for `healthchecks.get_ping_url_remote`:
the structured envelope produced by the handler. -/
structure Envelope where
  data : Option String
  errors : List String
deriving DecidableEq, Repr

/-- A raw per-minion publish return as inspected by `_query_remote`:
either something that is not a dict with a `data` key, or a dict in which
`data` is present (possibly null). -/
inductive RemoteRet where
  | invalid
  | env : Envelope → RemoteRet
deriving DecidableEq, Repr

/-- The static environment: the local minion id (`__grains__["id"]`), the
configured issuance policies (pillar first, then `config.get`), the
injected matcher backends of `_match_minions`, and the peer-publication
primitive (`publish.publish`, returning minion-id/value pairs). -/
structure Env where
  grainsId : String
  pillarPolicies : List (String × Policy) := []
  configPolicies : List (String × Policy) := []
  matchGlob : String → String → Bool
  runnerMatch : String → String → Option String
  publish : String → String → String → CheckParams → List (String × RemoteRet)

/-- `_get_policy`: pillar lookup takes precedence over `config.get`;
`none` models both an absent policy name and a name that resolves to
nothing (the falsy `{}`).  Configured policies are assumed non-empty. -/
def get_policy (env : Env) (pname : Option String) : Option Policy :=
  match pname with
  | none => none
  | some n =>
    match env.pillarPolicies.lookup n with
    | some pol => some pol
    | none => env.configPolicies.lookup n

/-- `_match_minions`: compound expressions (containing `@`) go through the
`match.compound_matches` runner (which may be unavailable), plain globs
through `match.glob`. -/
def match_minions (env : Env) (test minion : String) : Except Err Bool :=
  if test.toList.contains '@' then
    match env.runnerMatch test minion with
    | none => .error (.execution "Could not check minion match for compound expression. Is this minion allowed to run `match.compound_matches` on the master?")
    | some m => .ok (m == minion)
  else .ok (env.matchGlob test minion)

/-- `kwargs.update(policy)`: a policy override replaces the caller's value
for every parameter the policy sets. -/
def mergeParams (kw ov : CheckParams) : CheckParams where
  tags := ov.tags <|> kw.tags
  desc := ov.desc <|> kw.desc
  timeout := ov.timeout <|> kw.timeout
  grace := ov.grace <|> kw.grace
  schedule := ov.schedule <|> kw.schedule
  tz := ov.tz <|> kw.tz
  manual_resume := ov.manual_resume <|> kw.manual_resume
  methods := ov.methods <|> kw.methods
  channels := ov.channels <|> kw.channels
  start_kw := ov.start_kw <|> kw.start_kw
  success_kw := ov.success_kw <|> kw.success_kw
  failure_kw := ov.failure_kw <|> kw.failure_kw
  filter_subject := ov.filter_subject <|> kw.filter_subject
  filter_body := ov.filter_body <|> kw.filter_body

/-- `_query_remote`: publish the call to the named server and decode the
single response: no response at all is an invocation error, a response
without the envelope shape or with a non-empty `errors` list is an
execution error, otherwise `result["data"]` is returned (which may be
null). -/
def query_remote (env : Env) (server policyName name : String) (p : CheckParams) (st : St) :
    Except Err (Option String) × St :=
  let st1 : St := { st with trace := st.trace ++ [.publishCall server policyName] }
  match env.publish server policyName name p with
  | [] => (.error (.invocation "server did not respond. Salt master must permit peers to call the get_ping_url_remote function."), st1)
  | (_, r) :: _ =>
    match r with
    | .invalid => (.error (.execution "Received invalid return value from server. See minion log for details"), st1)
    | .env e =>
      if !e.errors.isEmpty then
        (.error (.execution ("server reported errors:\n" ++ String.intercalate "\n" e.errors)), st1)
      else (.ok e.data, st1)

/-- The reconcile/write/fetch/cache sequence at the end of
`get_ping_url`'s try block.  A vanished check after the write surfaces as
the uncaught `TypeError` of subscripting `None`; errors are paired with
the `name` binding in scope at the raise site (the fallback key of the
handler). -/
def local_issue (name : String) (p : CheckParams) (st : St) :
    Except (Err × String) (Option String) × St :=
  match get_managed_changes name p st with
  | (.error e, st1) => (.error (e, name), st1)
  | (.ok changes, st1) =>
    let afterWrite : Except Err Unit × St :=
      if changes.truthy then
        match write_check name p st1 with
        | (.error e, st2) => (.error e, st2)
        | (.ok _, st2) => (.ok (), st2)
      else (.ok (), st1)
    match afterWrite with
    | (.error e, st2) => (.error (e, name), st2)
    | (.ok _, st2) =>
      match fetch_check name st2 with
      | (.error e, st3) => (.error (e, name), st3)
      | (.ok none, st3) => (.error (.pyError "TypeError: NoneType object is not subscriptable", name), st3)
      | (.ok (some check), st3) =>
        (.ok (some check.ping_url), cacheStore st3 cbank name (some check.ping_url))

/-- The `if "minions" in pol` authorisation step of `get_ping_url`:
evaluate the popped matcher against this minion's own id when present. -/
def policy_minions_check (env : Env) (pol : Policy) : Except Err Unit :=
  match pol.minions with
  | none => .ok ()
  | some m =>
    match match_minions env m env.grainsId with
    | .error e => .error e
    | .ok true => .ok ()
    | .ok false => .error (.execution "minion not permitted to use specified policy")

/-- The try block of `get_ping_url`: delegation when `server` names
another minion (requiring a policy), otherwise local policy application
followed by local issuance.  Errors carry the current `name` binding,
because the handler consults the cache under that key. -/
def get_ping_url_try (env : Env) (name : String) (server policyName : Option String)
    (p : CheckParams) (st : St) : Except (Err × String) (Option String) × St :=
  if pyTruthyStr server && server != some env.grainsId then
    if !pyTruthyStr policyName then
      (.error (.invocation "Remote issuance requires a policy", name), st)
    else
      match query_remote env (server.getD "") (policyName.getD "") name p st with
      | (.error e, st1) => (.error (e, name), st1)
      | (.ok result, st1) => (.ok result, cacheStore st1 cbank name result)
  else
    if pyTruthyStr policyName then
      match policy_minions_check env ((get_policy env policyName).getD {}) with
      | .error e => (.error (e, name), st)
      | .ok _ =>
        local_issue (if pyTruthyStr server then env.grainsId ++ " " ++ name else name)
          (mergeParams p ((get_policy env policyName).getD {}).overrides) st
    else
      local_issue name p st

/-- `get_ping_url`.  The `cache` keyword parameter is shadowed immediately
by `cache = salt.cache.factory(__opts__)` in the source, hence it is
never read.  The handler catches `CommandExecutionError` and
`SaltInvocationError` and falls back to the cache under the current name
binding. -/
def get_ping_url (env : Env) (name : String) (server policyName : Option String)
    (cache : Bool) (p : CheckParams) (st : St) : Except Err (Option String) × St :=
  match get_ping_url_try env name server policyName p st with
  | (.ok url, st1) => (.ok url, st1)
  | (.error (e, n), st1) =>
    if e.handled then
      match cacheGet cbank n st1.cache with
      | some u => (.ok u, st1)
      | none => (.error e, st1)
    else (.error e, st1)

/-- The second try block of `get_ping_url_remote`: prefix the check name
with the requester's id, merge the policy overrides and issue locally,
converting any raised error into the envelope's `errors` list. -/
def remote_issue (env : Env) (pol : Policy) (pid : String) (name : Option String)
    (p : CheckParams) (st : St) : Envelope × St :=
  let name0 := name.getD ""
  let fullName := if name0 ≠ "" then pid ++ " " ++ name0 else pid
  let merged := mergeParams p pol.overrides
  match get_ping_url env fullName none none true merged st with
  | (.ok url, st1) => ({ data := url, errors := [] }, st1)
  | (.error e, st1) => ({ data := none, errors := [e.msg] }, st1)

/-- `get_ping_url_remote`: the server-side peer handler.  Every failure is
converted into the `{data, errors}` envelope; nothing is raised across
the RPC boundary (both try blocks catch broad `Exception`).  `pubId`
models `more_kwargs["__pub_id"]`. -/
def get_ping_url_remote (env : Env) (policyName : Option String) (name : Option String)
    (p : CheckParams) (pubId : Option String) (st : St) : Envelope × St :=
  match get_policy env policyName with
  | none => ({ data := none, errors := ["policy must be specified and defined on issuing minion"] }, st)
  | some pol =>
    match pol.minions with
    | some m =>
      match pubId with
      | none => ({ data := none, errors := ["minion sending this request could not be identified"] }, st)
      | some pid =>
        match match_minions env m pid with
        | .error _ =>
          ({ data := none, errors := ["Failed building the policy. See issuing minion server log for details."] }, st)
        | .ok false => ({ data := none, errors := ["minion not permitted to use specified policy"] }, st)
        | .ok true => remote_issue env pol pid name p st
    | none =>
      match pubId with
      | none =>
        ({ data := none, errors := ["Failed building the policy. See issuing minion server log for details."] }, st)
      | some pid => remote_issue env pol pid name p st

/-! ### Pure characterisations

Each read-only operation below is also described by a pure result (a
function of the world only) paired with a pure trace extension; the
equations relating the two are proved in the theorem section. -/

/-- Pure result of `client.get("checks/")`. -/
def checksResult (w : World) : Except Err (List Check) :=
  match w.apiFail with
  | some msg => .error (.execution ("HlcksUnavailableError: " ++ msg))
  | none => .ok w.checks

/-- Pure result of `fetch_check`. -/
def fetchResult (name : String) (w : World) : Except Err (Option Check) :=
  match checksResult w with
  | .error e => .error e
  | .ok cs => find_check_by_name name cs

/-- Pure result of `list_channels`. -/
def channelsResult (kindA nameA : Option StrOrList) (w : World) : Except Err (List Channel) :=
  let nameL := wrapArg nameA
  let kindL := wrapArg kindA
  match w.apiFail with
  | some msg => .error (.execution ("HlcksUnavailableError: " ++ msg))
  | none =>
    if kindL.isEmpty || !nameL.isEmpty then .ok w.channels
    else
      .ok (w.channels.filter (fun c =>
        !(!kindL.isEmpty && !kindL.contains (some c.kind)) &&
        !(!nameL.isEmpty && !nameL.contains (some c.name))))

/-- Pure result of the channel-resolution loop. -/
def resolveResult (items : List ChanItem) (w : World) : Except Err (List String) :=
  match items with
  | [] => .ok []
  | .id s :: rest =>
    match resolveResult rest w with
    | .ok l => .ok (s :: l)
    | .error e => .error e
  | .query k n :: rest =>
    match channelsResult k n w with
    | .error e => .error e
    | .ok cs =>
      match resolveResult rest w with
      | .ok l => .ok (cs.map Channel.id ++ l)
      | .error e => .error e

/-- Effect trace of the channel-resolution loop. -/
def resolveTrace (items : List ChanItem) (w : World) : List Eff :=
  match items with
  | [] => []
  | .id _ :: rest => resolveTrace rest w
  | .query k n :: rest =>
    match channelsResult k n w with
    | .error _ => [.apiListChannels]
    | .ok _ => .apiListChannels :: resolveTrace rest w

/-- Pure result of the `channels` normalisation. -/
def parseChannelsResult (arg : Option ChannelsArg) (w : World) : Except Err (Option Val) :=
  match arg with
  | none => .ok none
  | some (.str s) =>
    if s = "" then .ok (some (.str s))
    else
      match resolveResult [.id s] w with
      | .error e => .error e
      | .ok ids => .ok (some (.str (String.intercalate "," ids)))
  | some (.list l) =>
    if l.isEmpty then .ok (some (.list []))
    else
      match resolveResult l w with
      | .error e => .error e
      | .ok ids => .ok (some (.str (String.intercalate "," ids)))

/-- Effect trace of the `channels` normalisation. -/
def parseChannelsTrace (arg : Option ChannelsArg) (w : World) : List Eff :=
  match arg with
  | none => []
  | some (.str s) => if s = "" then [] else resolveTrace [.id s] w
  | some (.list l) => if l.isEmpty then [] else resolveTrace l w

/-- Pure result of `parse_check_params`. -/
def parseResult (name : Option String) (p : CheckParams)
    (defaults : Option (List (String × Val))) (w : World) :
    Except Err (List (String × Val)) :=
  if pyTruthyStr p.methods && !(p.methods == some "" || p.methods == some "POST") then
    .error (.invocation "methods must be either an empty string or POST, if set")
  else
    match parseChannelsResult p.channels w with
    | .error e => .error e
    | .ok chanV =>
      let timeout := if pyTruthyStr p.schedule && pyTruthyInt p.timeout then none else p.timeout
      let tz := if pyTruthyInt timeout && pyTruthyStr p.tz then none else p.tz
      .ok (buildPayload defaults [
        ("name", name.map .str),
        ("tags", parseJoined " " p.tags),
        ("desc", p.desc.map .str),
        ("timeout", timeout.map .int),
        ("grace", p.grace.map .int),
        ("schedule", p.schedule.map .str),
        ("tz", tz.map .str),
        ("manual_resume", p.manual_resume.map .bool),
        ("methods", p.methods.map .str),
        ("channels", chanV),
        ("start_kw", parseJoined "," p.start_kw),
        ("success_kw", parseJoined "," p.success_kw),
        ("failure_kw", parseJoined "," p.failure_kw),
        ("filter_subject", p.filter_subject.map .bool),
        ("filter_body", p.filter_body.map .bool)])

/-- Effect trace of `parse_check_params`. -/
def parseTrace (p : CheckParams) (w : World) : List Eff :=
  if pyTruthyStr p.methods && !(p.methods == some "" || p.methods == some "POST") then []
  else parseChannelsTrace p.channels w

/-- Pure result of `get_managed_changes`. -/
def gmcResult (name : String) (p : CheckParams) (w : World) : Except Err Changes :=
  match fetchResult name w with
  | .error e => .error e
  | .ok none => .ok (.created name)
  | .ok (some current) =>
    match parseResult (some name) p none w with
    | .error e => .error e
    | .ok payload =>
      match computeDiff current.fields payload with
      | .error e => .error e
      | .ok l => .ok (.diffs l)

/-- Effect trace of `get_managed_changes`. -/
def gmcTrace (name : String) (p : CheckParams) (w : World) : List Eff :=
  match fetchResult name w with
  | .ok (some _) => .apiListChecks :: parseTrace p w
  | _ => [.apiListChecks]

/-- Pure result of `write_check`: the server response together with the
updated world. -/
def writeResult (name : String) (p : CheckParams) (w : World) :
    Except Err (Check × World) :=
  match parseResult (some name) p none w with
  | .error e => .error e
  | .ok payload =>
    match w.apiFail with
    | some msg => .error (.execution ("HlcksUnavailableError: " ++ msg))
    | none => .ok (serverUpsert payload w)

/-- Effect trace of `write_check`. -/
def writeTrace (name : String) (p : CheckParams) (w : World) : List Eff :=
  match parseResult (some name) p none w with
  | .error _ => parseTrace p w
  | .ok payload => parseTrace p w ++ [.apiWrite payload]

/-- Association lookup on the optional-value entry list fed to
`buildPayload` (used to state payload-lookup facts). -/
def lookupOpt (k : String) : List (String × Option Val) → Option (Option Val)
  | [] => none
  | (k', v) :: rest => if k' = k then some v else lookupOpt k rest

/-- Modelled from the spec: a channel-selector sub-query resolves to
exactly the identifiers of the channels matching the given kind/name
filters ("channels: comma-joined identifiers, resolving any
channel-selector sub-query by kind/name against the live channel
list"). -/
def specSelectorIds (kind name : Option (List String)) (channels : List Channel) : List String :=
  (channels.filter (fun c =>
    (match kind with | none => true | some ks => ks.contains c.kind) &&
    (match name with | none => true | some ns => ns.contains c.name))).map Channel.id

/-- A concrete managed check used by the idempotence witness. -/
def c6Check : Check :=
  { fields := [("name", .str "mycheck"), ("tags", .str ""), ("desc", .str ""),
      ("timeout", .int 3600), ("grace", .int 3600), ("schedule", .str ""),
      ("tz", .str ""), ("manual_resume", .bool false), ("methods", .str ""),
      ("channels", .str ""), ("start_kw", .str ""), ("success_kw", .str ""),
      ("failure_kw", .str ""), ("filter_subject", .bool false),
      ("filter_body", .bool false)],
    ping_url := "https://hc.example/ping/u-000" }

/-- Concrete world for the idempotence witness: the check exists and
already has the desired timeout. -/
def c6World : World :=
  { checks := [c6Check], channels := [], apiFail := none,
    baseUrl := "https://hc.example", nextUuid := "u-001" }

/-- Concrete state wrapping `c6World`. -/
def c6St : St := { world := c6World, cache := [], trace := [] }

/-- Concrete state for the idempotence witness: no check exists yet. -/
def c6StEmpty : St :=
  { world := { c6World with checks := [] }, cache := [], trace := [] }

/-- Concrete desired parameters for the idempotence witness. -/
def c6Params : CheckParams := { timeout := some 3600 }

/-- A minimal environment for concrete witnesses: local identity
`"local"`, no policies, equality-glob matching, no compound runner, and a
peer that never answers. -/
def baseEnv : Env :=
  { grainsId := "local", matchGlob := fun t m => t == m,
    runnerMatch := fun _ _ => none, publish := fun _ _ _ _ => [] }

/-- World for the 503 scenarios: the monitoring API is unavailable. -/
def c2World : World :=
  { checks := [], channels := [], apiFail := some "maintenance",
    baseUrl := "https://hc.example", nextUuid := "u-001" }

/-- State for the 503 scenarios: the cache already holds a previously
issued URL for `mycheck`. -/
def c2St : St :=
  { world := c2World,
    cache := [((cbank, "mycheck"), some "https://x/ping/abc")], trace := [] }

/-- State for the 503 scenario with an empty cache. -/
def c2StMiss : St := { c2St with cache := [] }

/-- World for the issuer-without-policy counterexample: healthy API. -/
def c4World : World :=
  { checks := [], channels := [], apiFail := none,
    baseUrl := "https://hc.example", nextUuid := "u-001" }

/-- State whose cache already holds an entry for `mycheck`. -/
def c4St : St :=
  { world := c4World,
    cache := [((cbank, "mycheck"), some "https://x/ping/abc")], trace := [] }

/-- Same world with an empty cache. -/
def c4StMiss : St := { c4St with cache := [] }

/-- Environment with a `borgmatic` policy restricted to `www*` minions;
the glob backend rejects everything (in particular the local id `local`
and the requester `db1`). -/
def c5Env : Env :=
  { grainsId := "local",
    pillarPolicies := [("borgmatic",
      { minions := some "www*", overrides := { timeout := some 3600 } })],
    configPolicies := [],
    matchGlob := fun _ _ => false,
    runnerMatch := fun _ _ => none,
    publish := fun _ _ _ _ => [] }

/-- Environment whose peer answers with a well-formed envelope carrying
`data = null` and empty `errors`. -/
def c9Env : Env :=
  { grainsId := "local", matchGlob := fun t m => t == m,
    runnerMatch := fun _ _ => none,
    publish := fun _ _ _ _ => [("srv1", .env { data := none, errors := [] })] }

/-- World with two live channels (an email one and a slack one) for the
channel-selector evaluation. -/
def c8World : World :=
  { checks := [], channels := [
      { id := "id1", kind := "email", name := "a" },
      { id := "id2", kind := "slack", name := "b" }],
    apiFail := none, baseUrl := "https://hc.example", nextUuid := "u-001" }

/-- State wrapping `c8World`. -/
def c8St : St := { world := c8World, cache := [], trace := [] }

/-- Desired parameters containing the channel-selector sub-query
`channels=[{kind: "email"}]`. -/
def c8Params : CheckParams :=
  { channels := some (.list [.query (some (.str "email")) none]) }

/-- The check the monitoring server creates for a write payload with no
matching existing check (fresh ping URL `<base>/ping/<uuid>`). -/
def createdCheck (payload : List (String × Val)) (w : World) : Check :=
  { fields := payload, ping_url := w.baseUrl ++ "/ping/" ++ w.nextUuid }

/-- The world after the monitoring server created `createdCheck`. -/
def createdWorld (payload : List (String × Val)) (w : World) : World :=
  { w with checks := w.checks ++ [createdCheck payload w] }

/-! ### Characterisation equations -/

theorem apiGetChecks_eq (st : St) :
    apiGetChecks st = (checksResult st.world, { st with trace := st.trace ++ [.apiListChecks] }) := by
  unfold apiGetChecks checksResult
  rcases st.world.apiFail with _ | msg <;> rfl

theorem fetch_check_eq (name : String) (st : St) :
    fetch_check name st =
      (fetchResult name st.world, { st with trace := st.trace ++ [.apiListChecks] }) := by
  unfold fetch_check fetchResult
  rw [apiGetChecks_eq]
  rcases checksResult st.world with e | cs
  · rfl
  · dsimp only
    rcases find_check_by_name name cs with e | c <;> rfl

theorem list_channels_eq (kindA nameA : Option StrOrList) (st : St) :
    list_channels kindA nameA st =
      (channelsResult kindA nameA st.world,
        { st with trace := st.trace ++ [.apiListChannels] }) := by
  unfold list_channels channelsResult
  rcases st.world.apiFail with _ | msg
  · by_cases hc : ((wrapArg kindA).isEmpty || !(wrapArg nameA).isEmpty) = true
    · simp only [hc, if_true]
    · simp only [Bool.not_eq_true] at hc
      simp only [hc, Bool.false_eq_true, if_false]
  · rfl

theorem resolveChannels_eq (items : List ChanItem) (st : St) :
    resolveChannels items st =
      (resolveResult items st.world,
        { st with trace := st.trace ++ resolveTrace items st.world }) := by
  induction items generalizing st with
  | nil =>
    simp [resolveChannels, resolveResult, resolveTrace]
  | cons hd tl ih =>
    rcases hd with s | ⟨k, n⟩
    · show (match resolveChannels tl st with
        | (.ok l, st1) => ((.ok (s :: l) : Except Err (List String)), st1)
        | (.error e, st1) => (.error e, st1)) = _
      rw [ih st]
      rcases hR : resolveResult tl st.world with e | l <;>
        simp [resolveResult, resolveTrace, hR]
    · show (match list_channels k n st with
        | (.error e, st1) => ((.error e : Except Err (List String)), st1)
        | (.ok cs, st1) =>
          match resolveChannels tl st1 with
          | (.ok l, st2) => (.ok (cs.map Channel.id ++ l), st2)
          | (.error e, st2) => (.error e, st2)) = _
      rw [list_channels_eq]
      rcases hC : channelsResult k n st.world with e | cs
      · simp [resolveResult, resolveTrace, hC]
      · dsimp only
        rw [ih]
        rcases hR : resolveResult tl st.world with e | l <;>
          simp [resolveResult, resolveTrace, hC, hR]

theorem parseChannels_eq (arg : Option ChannelsArg) (st : St) :
    parseChannels arg st =
      (parseChannelsResult arg st.world,
        { st with trace := st.trace ++ parseChannelsTrace arg st.world }) := by
  rcases arg with _ | s | l
  · simp [parseChannels, parseChannelsResult, parseChannelsTrace]
  · unfold parseChannels parseChannelsResult parseChannelsTrace
    dsimp only
    by_cases hs : s = ""
    · rw [if_pos hs, if_pos hs, if_pos hs]
      simp
    · rw [if_neg hs, if_neg hs, if_neg hs]
      rw [resolveChannels_eq]
      rcases hR : resolveResult [ChanItem.id s] st.world with e | ids <;> simp [hR]
  · unfold parseChannels parseChannelsResult parseChannelsTrace
    dsimp only
    by_cases hl : l.isEmpty = true
    · rw [if_pos hl, if_pos hl, if_pos hl]
      simp
    · rw [if_neg hl, if_neg hl, if_neg hl]
      rw [resolveChannels_eq]
      rcases hR : resolveResult l st.world with e | ids <;> simp [hR]

theorem parse_check_params_eq (name : Option String) (p : CheckParams)
    (defaults : Option (List (String × Val))) (st : St) :
    parse_check_params name p defaults st =
      (parseResult name p defaults st.world,
        { st with trace := st.trace ++ parseTrace p st.world }) := by
  unfold parse_check_params parseResult parseTrace
  by_cases hm : (pyTruthyStr p.methods &&
      !(p.methods == some "" || p.methods == some "POST")) = true
  · rw [if_pos hm, if_pos hm, if_pos hm]
    simp
  · rw [if_neg hm, if_neg hm, if_neg hm]
    rw [parseChannels_eq]
    rcases hC : parseChannelsResult p.channels st.world with e | chanV <;> simp [hC]

theorem get_managed_changes_eq (name : String) (p : CheckParams) (st : St) :
    get_managed_changes name p st =
      (gmcResult name p st.world,
        { st with trace := st.trace ++ gmcTrace name p st.world }) := by
  unfold get_managed_changes gmcResult gmcTrace
  rw [fetch_check_eq]
  rcases hF : fetchResult name st.world with e | c
  · simp [hF]
  · rcases c with _ | cur
    · simp [hF]
    · dsimp only
      rw [parse_check_params_eq]
      rcases hP : parseResult (some name) p none st.world with e | payload

      · simp [hF, hP]
      · rcases hD : computeDiff cur.fields payload with e | l <;> simp [hF, hP, hD]

theorem write_check_eq (name : String) (p : CheckParams) (st : St) :
    write_check name p st =
      ((writeResult name p st.world).map Prod.fst,
        { st with
          world := match writeResult name p st.world with
            | .ok r => r.2
            | .error _ => st.world,
          trace := st.trace ++ writeTrace name p st.world }) := by
  unfold write_check writeResult writeTrace
  rw [parse_check_params_eq]
  rcases hP : parseResult (some name) p none st.world with e | payload
  · simp [hP, Except.map]
  · dsimp only
    rcases hA : st.world.apiFail with _ | msg
    · simp [hP, hA, Except.map]
    · simp [hP, hA, Except.map]

/-! ### Payload and field-lookup lemmas -/

theorem lookupKV_eq_none_of_not_mem (k : String) (l : List (String × Val))
    (h : k ∉ l.map Prod.fst) : lookupKV k l = none := by
  induction l with
  | nil => rfl
  | cons hd tl ih =>
    rcases hd with ⟨k1, v1⟩
    simp only [List.map_cons, List.mem_cons] at h
    push_neg at h
    simp only [lookupKV, if_neg (Ne.symm h.1), ih h.2]

theorem buildPayload_keys_sublist (defaults : Option (List (String × Val)))
    (l : List (String × Option Val)) :
    ((buildPayload defaults l).map Prod.fst).Sublist (l.map Prod.fst) := by
  induction l with
  | nil => simp [buildPayload]
  | cons hd tl ih =>
    rcases hd with ⟨k1, v1⟩
    rcases v1 with _ | v
    · rcases defaults with _ | d
      · simpa [buildPayload] using ih.cons k1
      · simp only [buildPayload]
        rcases lookupKV k1 d with _ | v
        · simpa using ih.cons k1
        · simpa using ih.cons₂ k1
    · simpa [buildPayload] using ih.cons₂ k1

theorem buildPayload_none_lookup (l : List (String × Option Val)) (k : String)
    (hnd : (l.map Prod.fst).Nodup) :
    lookupKV k (buildPayload none l) = (lookupOpt k l).join := by
  induction l with
  | nil => rfl
  | cons hd tl ih =>
    rcases hd with ⟨k1, v1⟩
    simp only [List.map_cons, List.nodup_cons] at hnd
    rcases v1 with _ | v
    · by_cases hk : k1 = k
      · subst hk
        have hnone : lookupKV k1 (buildPayload none tl) = none := by
          apply lookupKV_eq_none_of_not_mem
          intro hmem
          exact hnd.1 ((buildPayload_keys_sublist none tl).subset hmem)
        simp [buildPayload, lookupKV, lookupOpt, hnone]
      · simp [buildPayload, lookupKV, lookupOpt, hk, ih hnd.2, Option.join]
    · by_cases hk : k1 = k
      · subst hk
        simp [buildPayload, lookupKV, lookupOpt]
      · simp [buildPayload, lookupKV, lookupOpt, hk, ih hnd.2, Option.join]

theorem lookupKV_of_mem_nodup {l : List (String × Val)}
    (hnd : (l.map Prod.fst).Nodup) {k : String} {v : Val} (hmem : (k, v) ∈ l) :
    lookupKV k l = some v := by
  induction l with
  | nil => simp at hmem
  | cons hd tl ih =>
    rcases hd with ⟨k1, v1⟩
    simp only [List.map_cons, List.nodup_cons] at hnd
    rcases List.mem_cons.mp hmem with heq | htl
    · obtain ⟨rfl, rfl⟩ := Prod.mk.injEq .. ▸ heq
      · simp [lookupKV]
    · have hk : k1 ≠ k := by
        rintro rfl
        exact hnd.1 (List.mem_map_of_mem Prod.fst htl)
      simp [lookupKV, hk, ih hnd.2 htl]

theorem computeDiff_ok_nil {cs : List (String × Val)} {pl : List (String × Val)}
    (h : ∀ pv ∈ pl, lookupKV pv.1 cs = some pv.2) : computeDiff cs pl = .ok [] := by
  induction pl with
  | nil => rfl
  | cons hd tl ih =>
    rcases hd with ⟨k1, v1⟩
    have h1 := h (k1, v1) (List.mem_cons_self _ _)
    simp only at h1
    have h2 := ih (fun pv hpv => h pv (List.mem_cons_of_mem _ hpv))
    simp [computeDiff, h1, h2]

theorem lookupKV_setField_self (fs : List (String × Val)) (k : String) (v : Val) :
    lookupKV k (setField fs k v) = (lookupKV k fs).map (fun _ => v) := by
  induction fs with
  | nil => rfl
  | cons hd tl ih =>
    rcases hd with ⟨k1, v1⟩
    simp only [setField, List.map_cons] at ih ⊢
    dsimp only
    by_cases hk : k1 = k
    · rw [if_pos hk]
      subst hk
      simp [lookupKV]
    · rw [if_neg hk]
      simp [lookupKV, hk, ih]

theorem lookupKV_setField_ne (fs : List (String × Val)) (k q : String) (v : Val)
    (h : q ≠ k) : lookupKV q (setField fs k v) = lookupKV q fs := by
  induction fs with
  | nil => rfl
  | cons hd tl ih =>
    rcases hd with ⟨k1, v1⟩
    simp only [setField, List.map_cons] at ih ⊢
    dsimp only
    by_cases hk : k1 = k
    · rw [if_pos hk]
      subst hk
      simp [lookupKV, Ne.symm h, ih]
    · rw [if_neg hk]
      by_cases hq : k1 = q <;> simp [lookupKV, hk, hq, ih]

theorem lookupKV_append_right (k : String) (l1 l2 : List (String × Val))
    (h : lookupKV k l1 = none) : lookupKV k (l1 ++ l2) = lookupKV k l2 := by
  induction l1 with
  | nil => rfl
  | cons hd tl ih =>
    rcases hd with ⟨k1, v1⟩
    by_cases hk : k1 = k
    · simp [lookupKV, hk] at h
    · simp only [lookupKV, if_neg hk] at h
      simp [lookupKV, hk, ih h]

theorem upsertField_self (fs : List (String × Val)) (k : String) (v : Val) :
    lookupKV k (upsertField fs k v) = some v := by
  unfold upsertField
  by_cases hs : (lookupKV k fs).isSome
  · rw [if_pos hs, lookupKV_setField_self]
    rcases hv : lookupKV k fs with _ | w
    · rw [hv] at hs
      simp at hs
    · simp
  · rw [if_neg hs]
    have hnone : lookupKV k fs = none := by
      rcases hv : lookupKV k fs with _ | w
      · rfl
      · rw [hv] at hs
        simp at hs
    rw [lookupKV_append_right k fs _ hnone]
    simp [lookupKV]

theorem upsertField_ne (fs : List (String × Val)) (k q : String) (v : Val)
    (h : q ≠ k) : lookupKV q (upsertField fs k v) = lookupKV q fs := by
  unfold upsertField
  by_cases hs : (lookupKV k fs).isSome
  · rw [if_pos hs, lookupKV_setField_ne fs k q v h]
  · rw [if_neg hs]
    rcases hv : lookupKV q fs with _ | w
    · rw [lookupKV_append_right q fs _ hv]
      simp [lookupKV, Ne.symm h]
    · clear hs
      induction fs with
      | nil => simp [lookupKV] at hv
      | cons hd tl ih =>
        rcases hd with ⟨k1, v1⟩
        by_cases hq : k1 = q
        · subst hq
          simp [lookupKV] at hv
          simp [lookupKV, hv]
        · simp only [lookupKV, if_neg hq] at hv
          simp [lookupKV, hq, ih hv]

theorem updateFields_not_mem (pl : List (String × Val)) (fs : List (String × Val))
    (k : String) (h : k ∉ pl.map Prod.fst) :
    lookupKV k (updateFields fs pl) = lookupKV k fs := by
  induction pl generalizing fs with
  | nil => rfl
  | cons hd tl ih =>
    rcases hd with ⟨k1, v1⟩
    simp only [List.map_cons, List.mem_cons] at h
    push_neg at h
    show lookupKV k (updateFields (upsertField fs k1 v1) tl) = _
    rw [ih _ h.2, upsertField_ne fs k1 k v1 h.1]

theorem updateFields_lookup {pl : List (String × Val)}
    (hnd : (pl.map Prod.fst).Nodup) {k : String} {v : Val} (hmem : (k, v) ∈ pl)
    (fs : List (String × Val)) :
    lookupKV k (updateFields fs pl) = some v := by
  induction pl generalizing fs with
  | nil => simp at hmem
  | cons hd tl ih =>
    rcases hd with ⟨k1, v1⟩
    simp only [List.map_cons, List.nodup_cons] at hnd
    rcases List.mem_cons.mp hmem with heq | htl
    · obtain ⟨rfl, rfl⟩ := Prod.mk.injEq .. ▸ heq
      show lookupKV k (updateFields (upsertField fs k v) tl) = some v
      rw [updateFields_not_mem tl _ k hnd.1, upsertField_self]
    · have hk : k1 ≠ k := by
        rintro rfl
        exact hnd.1 (List.mem_map_of_mem Prod.fst htl)
      exact ih hnd.2 htl _

/-! ### Find / upsert interaction lemmas -/

theorem find_upsert_none {name : String} {cs : List Check}
    (h : find_check_by_name name cs = .ok none)
    {payload : List (String × Val)}
    (hp : lookupKV "name" payload = some (.str name)) :
    upsertList payload cs = none ∧
      ∀ u, find_check_by_name name (cs ++ [{ fields := payload, ping_url := u }]) =
        .ok (some { fields := payload, ping_url := u }) := by
  induction cs with
  | nil =>
    refine ⟨rfl, fun u => ?_⟩
    simp [find_check_by_name, hp]
  | cons c rest ih =>
    rcases hv : lookupKV "name" c.fields with _ | v
    · simp [find_check_by_name, hv] at h
    · simp only [find_check_by_name, hv] at h
      by_cases hvn : v = .str name
      · rw [if_pos hvn] at h
        simp at h
      · rw [if_neg hvn] at h
        obtain ⟨h1, h2⟩ := ih h
        constructor
        · have hne : lookupKV "name" c.fields ≠ lookupKV "name" payload := by
            rw [hv, hp]
            intro hc
            exact hvn (Option.some.injEq .. ▸ hc)
          simp only [upsertList, if_neg hne, h1]
        · intro u
          simp only [List.cons_append, find_check_by_name, hv, if_neg hvn]
          exact h2 u

theorem find_upsert_some {name : String} {cs : List Check} {cur : Check}
    (h : find_check_by_name name cs = .ok (some cur))
    {payload : List (String × Val)}
    (hp : lookupKV "name" payload = some (.str name))
    (hkeep : lookupKV "name" (updateFields cur.fields payload) = some (.str name)) :
    ∃ cs', upsertList payload cs =
        some ({ cur with fields := updateFields cur.fields payload }, cs') ∧
      find_check_by_name name cs' =
        .ok (some { cur with fields := updateFields cur.fields payload }) := by
  induction cs with
  | nil => simp [find_check_by_name] at h
  | cons c rest ih =>
    rcases hv : lookupKV "name" c.fields with _ | v
    · simp [find_check_by_name, hv] at h
    · simp only [find_check_by_name, hv] at h
      by_cases hvn : v = .str name
      · rw [if_pos hvn] at h
        have hcur : c = cur := by
          have := Except.ok.injEq .. ▸ h
          simpa using this
        subst hcur
        have heq : lookupKV "name" c.fields = lookupKV "name" payload := by
          rw [hv, hp, hvn]
        refine ⟨{ c with fields := updateFields c.fields payload } :: rest, ?_, ?_⟩
        · simp only [upsertList, if_pos heq]
        · simp [find_check_by_name, hkeep]
      · rw [if_neg hvn] at h
        obtain ⟨cs', h1, h2⟩ := ih h
        have hne : lookupKV "name" c.fields ≠ lookupKV "name" payload := by
          rw [hv, hp]
          intro hc
          exact hvn (Option.some.injEq .. ▸ hc)
        refine ⟨c :: cs', ?_, ?_⟩
        · simp only [upsertList, if_neg hne, h1]
        · simp only [find_check_by_name, hv, if_neg hvn]
          exact h2

/-! ### Shape of a successfully parsed payload -/

theorem parseResult_ok_shape {nm : String} {p : CheckParams}
    {d : Option (List (String × Val))} {w : World} {payload : List (String × Val)}
    (h : parseResult (some nm) p d w = .ok payload) :
    lookupKV "name" payload = some (.str nm) ∧ ("name", Val.str nm) ∈ payload ∧
      (payload.map Prod.fst).Nodup := by
  unfold parseResult at h
  split at h
  · simp at h
  · rcases hC : parseChannelsResult p.channels w with e | chanV
    · rw [hC] at h
      simp at h
    · rw [hC] at h
      simp only [Except.ok.injEq] at h
      subst h
      refine ⟨?_, ?_, ?_⟩
      · simp [buildPayload, lookupKV]
      · simp [buildPayload]
      · have hsub := buildPayload_keys_sublist d [
          ("tags", parseJoined " " p.tags),
          ("desc", p.desc.map .str),
          ("timeout", (if pyTruthyStr p.schedule && pyTruthyInt p.timeout then none
            else p.timeout).map .int),
          ("grace", p.grace.map .int),
          ("schedule", p.schedule.map .str),
          ("tz", (if pyTruthyInt (if pyTruthyStr p.schedule && pyTruthyInt p.timeout then none
            else p.timeout) && pyTruthyStr p.tz then none else p.tz).map .str),
          ("manual_resume", p.manual_resume.map .bool),
          ("methods", p.methods.map .str),
          ("channels", chanV),
          ("start_kw", parseJoined "," p.start_kw),
          ("success_kw", parseJoined "," p.success_kw),
          ("failure_kw", parseJoined "," p.failure_kw),
          ("filter_subject", p.filter_subject.map .bool),
          ("filter_body", p.filter_body.map .bool)]
        simp only [List.map_cons] at hsub
        have hnd14 : List.Nodup ["tags", "desc", "timeout", "grace", "schedule", "tz",
            "manual_resume", "methods", "channels", "start_kw", "success_kw",
            "failure_kw", "filter_subject", "filter_body"] := by decide
        show (("name", Val.str nm) :: buildPayload d _).map Prod.fst |>.Nodup
        simp only [List.map_cons, List.nodup_cons]
        constructor
        · intro hmem
          have := hsub.subset hmem
          revert this
          decide
        · exact hnd14.sublist hsub

/-! ### Congruence of the pure results in the world's check list -/

theorem channelsResult_congr (k n : Option StrOrList) (w w' : World)
    (hch : w.channels = w'.channels) (hf : w.apiFail = w'.apiFail) :
    channelsResult k n w = channelsResult k n w' := by
  unfold channelsResult
  rw [hch, hf]

theorem resolveResult_congr (items : List ChanItem) (w w' : World)
    (hch : w.channels = w'.channels) (hf : w.apiFail = w'.apiFail) :
    resolveResult items w = resolveResult items w' := by
  induction items with
  | nil => rfl
  | cons hd tl ih =>
    rcases hd with s | ⟨k, n⟩
    · simp only [resolveResult, ih]
    · simp only [resolveResult, ih, channelsResult_congr k n w w' hch hf]

theorem parseChannelsResult_congr (arg : Option ChannelsArg) (w w' : World)
    (hch : w.channels = w'.channels) (hf : w.apiFail = w'.apiFail) :
    parseChannelsResult arg w = parseChannelsResult arg w' := by
  rcases arg with _ | s | l
  · rfl
  · simp only [parseChannelsResult, resolveResult_congr [ChanItem.id s] w w' hch hf]
  · simp only [parseChannelsResult, resolveResult_congr l w w' hch hf]

theorem parseResult_congr (name : Option String) (p : CheckParams)
    (d : Option (List (String × Val))) (w w' : World)
    (hch : w.channels = w'.channels) (hf : w.apiFail = w'.apiFail) :
    parseResult name p d w = parseResult name p d w' := by
  unfold parseResult
  rw [parseChannelsResult_congr p.channels w w' hch hf]

/-! ### C6: idempotence of reconciliation -/

/-- C6: for all desired-parameter sets and current check states, applying
the diff produced by the reconciler (`get_managed_changes`) and then
reconciling again with the same parameters yields an empty diff.  The
first conjunct covers an already-empty diff (the module then performs no
write and a re-run still reports no changes); the second covers the
applying write (`write_check` is the operation `get_ping_url` uses to
apply a non-empty diff, both for updates and for creation). -/
theorem reconcile_write_reconcile_empty :
    (∀ (name : String) (p : CheckParams) (st st₁ : St),
        get_managed_changes name p st = (.ok (.diffs []), st₁) →
        (get_managed_changes name p st₁).1 = .ok (.diffs [])) ∧
    (∀ (name : String) (p : CheckParams) (st st₁ st₂ : St) (ch : Changes) (c : Check),
        get_managed_changes name p st = (.ok ch, st₁) →
        write_check name p st₁ = (.ok c, st₂) →
        (get_managed_changes name p st₂).1 = .ok (.diffs [])) := by
  constructor
  · intro name p st st₁ h
    rw [get_managed_changes_eq] at h
    have h1 : gmcResult name p st.world = .ok (.diffs []) := congrArg Prod.fst h
    have h2 : ({ st with trace := st.trace ++ gmcTrace name p st.world } : St) = st₁ :=
      congrArg Prod.snd h
    subst h2
    rw [get_managed_changes_eq]
    exact h1
  · intro name p st st₁ st₂ ch c h hw
    rw [get_managed_changes_eq] at h
    have hg : gmcResult name p st.world = .ok ch := congrArg Prod.fst h
    have hst1 : ({ st with trace := st.trace ++ gmcTrace name p st.world } : St) = st₁ :=
      congrArg Prod.snd h
    subst hst1
    rw [write_check_eq] at hw
    have hwr : (writeResult name p st.world).map Prod.fst = .ok c := congrArg Prod.fst hw
    have hst2 := congrArg Prod.snd hw
    dsimp only at hst2
    rcases hP : parseResult (some name) p none st.world with e | payload
    · rw [writeResult, hP] at hwr
      simp [Except.map] at hwr
    · rcases hA : st.world.apiFail with _ | msg
      swap
      · rw [writeResult, hP, hA] at hwr
        simp [Except.map] at hwr
      · have hwres : writeResult name p st.world = .ok (serverUpsert payload st.world) := by
          rw [writeResult, hP, hA]
        have hw2 : st₂.world = (serverUpsert payload st.world).2 := by
          rw [hwres] at hst2
          dsimp only at hst2
          rw [← hst2]
        obtain ⟨hp, hmem, hnd⟩ := parseResult_ok_shape hP
        have hchk : checksResult st.world = .ok st.world.checks := by
          rw [checksResult, hA]
        have hdiffehlp : ∀ fs : List (String × Val),
            (∀ pv ∈ payload, lookupKV pv.1 fs = some pv.2) →
            computeDiff fs payload = .ok [] := fun fs hfs => computeDiff_ok_nil hfs
        rw [get_managed_changes_eq]
        show gmcResult name p st₂.world = .ok (.diffs [])
        rcases hF : find_check_by_name name st.world.checks with e | r
        · rw [gmcResult, fetchResult, hchk] at hg
          dsimp only at hg
          rw [hF] at hg
          simp at hg
        · rcases r with _ | cur
          · obtain ⟨hu, hfind⟩ := find_upsert_none hF hp
            have hsu : serverUpsert payload st.world =
                ({ fields := payload,
                   ping_url := st.world.baseUrl ++ "/ping/" ++ st.world.nextUuid },
                 { st.world with checks := st.world.checks ++
                   [{ fields := payload,
                      ping_url := st.world.baseUrl ++ "/ping/" ++ st.world.nextUuid }] }) := by
              rw [serverUpsert, hu]
            rw [hw2, hsu]
            dsimp only
            have hchk2 : checksResult { st.world with checks := st.world.checks ++
                [{ fields := payload,
                   ping_url := st.world.baseUrl ++ "/ping/" ++ st.world.nextUuid }] } =
                .ok (st.world.checks ++
                  [{ fields := payload,
                     ping_url := st.world.baseUrl ++ "/ping/" ++ st.world.nextUuid }]) := by
              rw [checksResult]
              dsimp only
              rw [hA]
            rw [gmcResult, fetchResult, hchk2]
            dsimp only
            rw [hfind _]
            have hP2 : parseResult (some name) p none
                { st.world with checks := st.world.checks ++
                  [{ fields := payload,
                     ping_url := st.world.baseUrl ++ "/ping/" ++ st.world.nextUuid }] } =
                .ok payload := by
              rw [parseResult_congr (some name) p none
                { st.world with checks := st.world.checks ++
                  [{ fields := payload,
                     ping_url := st.world.baseUrl ++ "/ping/" ++ st.world.nextUuid }] }
                st.world rfl rfl]
              exact hP
            dsimp only
            rw [hP2]
            have hdone : computeDiff payload payload = .ok [] :=
              hdiffehlp payload (fun pv hpv =>
                lookupKV_of_mem_nodup hnd (show (pv.1, pv.2) ∈ payload by
                  rw [Prod.mk.eta]; exact hpv))
            dsimp only
            rw [hdone]
          · have hkeep : lookupKV "name" (updateFields cur.fields payload) =
                some (.str name) := updateFields_lookup hnd hmem cur.fields
            obtain ⟨cs2, hu, hfind⟩ := find_upsert_some hF hp hkeep
            have hsu : serverUpsert payload st.world =
                ({ cur with fields := updateFields cur.fields payload },
                 { st.world with checks := cs2 }) := by
              rw [serverUpsert, hu]
            rw [hw2, hsu]
            dsimp only
            have hchk2 : checksResult { st.world with checks := cs2 } = .ok cs2 := by
              rw [checksResult]
              dsimp only
              rw [hA]
            rw [gmcResult, fetchResult, hchk2]
            dsimp only
            rw [hfind]
            have hP2 : parseResult (some name) p none { st.world with checks := cs2 } =
                .ok payload := by
              rw [parseResult_congr (some name) p none
                { st.world with checks := cs2 } st.world rfl rfl]
              exact hP
            dsimp only
            rw [hP2]
            have hdone : computeDiff (updateFields cur.fields payload) payload = .ok [] :=
              hdiffehlp _ (fun pv hpv =>
                updateFields_lookup hnd (show (pv.1, pv.2) ∈ payload by
                  rw [Prod.mk.eta]; exact hpv) cur.fields)
            dsimp only
            rw [hdone]

/-- Witness for the idempotence theorem at concrete inputs: an existing
check already in the desired state (empty diff), and an absent check that
the applying write creates. -/
theorem reconcile_write_reconcile_empty_witness :
    (get_managed_changes "mycheck" c6Params
        (get_managed_changes "mycheck" c6Params c6St).2).1 = .ok (.diffs []) ∧
    (get_managed_changes "mycheck" c6Params
        (write_check "mycheck" c6Params
          (get_managed_changes "mycheck" c6Params c6StEmpty).2).2).1 = .ok (.diffs []) := by
  constructor
  · exact reconcile_write_reconcile_empty.1 "mycheck" c6Params c6St
      (get_managed_changes "mycheck" c6Params c6St).2 rfl
  · exact reconcile_write_reconcile_empty.2 "mycheck" c6Params c6StEmpty
      (get_managed_changes "mycheck" c6Params c6StEmpty).2
      (write_check "mycheck" c6Params
        (get_managed_changes "mycheck" c6Params c6StEmpty).2).2
      (.created "mycheck")
      { fields := [("name", .str "mycheck"), ("timeout", .int 3600)],
        ping_url := "https://hc.example/ping/u-001" }
      rfl rfl

/-! ### C7: schedule/timeout and timeout/tz exclusion -/

theorem buildPayload_params_lookup
    (v1 v2 v3 v4 v5 v6 v7 v8 v9 v10 v11 v12 v13 v14 v15 : Option Val) (k : String) :
    lookupKV k (buildPayload none [("name", v1), ("tags", v2), ("desc", v3),
      ("timeout", v4), ("grace", v5), ("schedule", v6), ("tz", v7),
      ("manual_resume", v8), ("methods", v9), ("channels", v10),
      ("start_kw", v11), ("success_kw", v12), ("failure_kw", v13),
      ("filter_subject", v14), ("filter_body", v15)]) =
    (lookupOpt k [("name", v1), ("tags", v2), ("desc", v3),
      ("timeout", v4), ("grace", v5), ("schedule", v6), ("tz", v7),
      ("manual_resume", v8), ("methods", v9), ("channels", v10),
      ("start_kw", v11), ("success_kw", v12), ("failure_kw", v13),
      ("filter_subject", v14), ("filter_body", v15)]).join := by
  apply buildPayload_none_lookup
  simp only [List.map_cons, List.map_nil]
  decide

/-- C7: for every desired-parameter set successfully parsed without
defaults (as in `get_managed_changes` / `write_check`): if schedule and
timeout are both supplied (truthy), the parsed payload keeps `schedule`
and has no `timeout` key; if timeout is supplied together with tz but
without schedule, the payload has no `tz` key and keeps `timeout`. -/
theorem parse_drops_timeout_and_tz :
    ∀ (nm : Option String) (p : CheckParams) (st st' : St)
      (payload : List (String × Val)),
      parse_check_params nm p none st = (.ok payload, st') →
      ((∀ s t, p.schedule = some s → s ≠ "" → p.timeout = some t → t ≠ 0 →
          lookupKV "schedule" payload = some (.str s) ∧
          lookupKV "timeout" payload = none) ∧
       (∀ t z, p.schedule = none → p.timeout = some t → t ≠ 0 →
          p.tz = some z → z ≠ "" →
          lookupKV "tz" payload = none ∧
          lookupKV "timeout" payload = some (.int t))) := by
  intro nm p st st' payload h
  rw [parse_check_params_eq] at h
  have hp : parseResult nm p none st.world = .ok payload := congrArg Prod.fst h
  clear h
  unfold parseResult at hp
  split at hp
  · simp at hp
  · rcases hC : parseChannelsResult p.channels st.world with e | chanV
    · rw [hC] at hp
      simp at hp
    · rw [hC] at hp
      simp only [Except.ok.injEq] at hp
      subst hp
      constructor
      · intro s t hs hs0 ht ht0
        constructor
        · rw [buildPayload_params_lookup]
          simp [lookupOpt, hs, Option.join]
        · rw [buildPayload_params_lookup]
          simp [lookupOpt, pyTruthyStr, pyTruthyInt, hs, ht, hs0, ht0, Option.join]
      · intro t z hs ht ht0 hz hz0
        constructor
        · rw [buildPayload_params_lookup]
          simp [lookupOpt, pyTruthyStr, pyTruthyInt, hs, ht, ht0, hz, hz0, Option.join]
        · rw [buildPayload_params_lookup]
          simp [lookupOpt, pyTruthyStr, pyTruthyInt, hs, ht, ht0, Option.join]

/-- Witness for the exclusion theorem: concrete parses exercising both
rules. -/
theorem parse_drops_timeout_and_tz_witness :
    (lookupKV "schedule"
        ((parse_check_params (some "c") { schedule := some "* * * * *", timeout := some 60 }
          none c6StEmpty).1.toOption.getD []) = some (.str "* * * * *") ∧
      lookupKV "timeout"
        ((parse_check_params (some "c") { schedule := some "* * * * *", timeout := some 60 }
          none c6StEmpty).1.toOption.getD []) = none) ∧
    (lookupKV "tz"
        ((parse_check_params (some "c") { timeout := some 60, tz := some "UTC" }
          none c6StEmpty).1.toOption.getD []) = none ∧
      lookupKV "timeout"
        ((parse_check_params (some "c") { timeout := some 60, tz := some "UTC" }
          none c6StEmpty).1.toOption.getD []) = some (.int 60)) := by
  constructor
  · exact (parse_drops_timeout_and_tz (some "c")
      { schedule := some "* * * * *", timeout := some 60 } c6StEmpty
      (parse_check_params (some "c") { schedule := some "* * * * *", timeout := some 60 }
        none c6StEmpty).2
      ((parse_check_params (some "c") { schedule := some "* * * * *", timeout := some 60 }
        none c6StEmpty).1.toOption.getD []) rfl).1 "* * * * *" 60 rfl
      (by decide) rfl (by decide)
  · exact (parse_drops_timeout_and_tz (some "c")
      { timeout := some 60, tz := some "UTC" } c6StEmpty
      (parse_check_params (some "c") { timeout := some 60, tz := some "UTC" }
        none c6StEmpty).2
      ((parse_check_params (some "c") { timeout := some 60, tz := some "UTC" }
        none c6StEmpty).1.toOption.getD []) rfl).2 60 "UTC" rfl rfl
      (by decide) rfl (by decide)

/-! ### Success paths always store the URL in the cache -/

theorem cacheGet_store_self (st : St) (bank key : String) (v : Option String) :
    cacheGet bank key (cacheStore st bank key v).cache = some v := by
  simp [cacheStore, cacheGet]

theorem local_issue_ok (name : String) (p : CheckParams) (st : St)
    (r : Option String) (st1 : St) (h : local_issue name p st = (.ok r, st1)) :
    cacheGet cbank name st1.cache = some r := by
  unfold local_issue at h
  split at h
  · simp at h
  · rename_i changes st1g hgmc
    split at h
    · rcases hW : write_check name p st1g with ⟨wres, st2⟩
      rw [hW] at h
      rcases wres with e | c
      · simp at h
      · dsimp only at h
        rcases hF : fetch_check name st2 with ⟨fres, st3⟩
        rw [hF] at h
        rcases fres with e | copt
        · simp at h
        · rcases copt with _ | check
          · simp at h
          · dsimp only at h
            simp only [Prod.mk.injEq, Except.ok.injEq] at h
            obtain ⟨h1, h2⟩ := h
            rw [← h2, ← h1]
            exact cacheGet_store_self _ _ _ _
    · conv at h => lhs; whnf
      rcases hF : fetch_check name st1g with ⟨fres, st3⟩
      rw [hF] at h
      rcases fres with e | copt
      · simp at h
      · rcases copt with _ | check
        · simp at h
        · dsimp only at h
          simp only [Prod.mk.injEq, Except.ok.injEq] at h
          obtain ⟨h1, h2⟩ := h
          rw [← h2, ← h1]
          exact cacheGet_store_self _ _ _ _

theorem get_ping_url_try_ok_cached (env : Env) (name : String)
    (server policyName : Option String) (p : CheckParams) (st : St)
    (r : Option String) (st1 : St)
    (h : get_ping_url_try env name server policyName p st = (.ok r, st1)) :
    ∃ k, cacheGet cbank k st1.cache = some r := by
  unfold get_ping_url_try at h
  split at h
  · split at h
    · simp at h
    · rcases hQ : query_remote env (server.getD "") (policyName.getD "") name p st with
        ⟨qres, st2⟩
      rw [hQ] at h
      rcases qres with e | result
      · simp at h
      · dsimp only at h
        simp only [Prod.mk.injEq, Except.ok.injEq] at h
        obtain ⟨h1, h2⟩ := h
        subst h1
        refine ⟨name, ?_⟩
        rw [← h2]
        exact cacheGet_store_self _ _ _ _
  · split at h
    · rcases hM : policy_minions_check env ((get_policy env policyName).getD {}) with e | u
      · rw [hM] at h
        simp at h
      · rw [hM] at h
        exact ⟨_, local_issue_ok _ _ _ _ _ h⟩
    · exact ⟨_, local_issue_ok _ _ _ _ _ h⟩

/-! ### C10: the `cache` keyword parameter is dead -/

/-- C10: the value of the `cache` keyword parameter of `get_ping_url` has
no effect on behaviour (it is immediately shadowed by
`cache = salt.cache.factory(__opts__)` in the source), and even with
`cache=False` the URL of every successful call is stored in the URL
cache (under bank `hlcks/check_returns`). -/
theorem get_ping_url_cache_param_dead :
    (∀ (env : Env) (name : String) (server policyName : Option String)
        (b₁ b₂ : Bool) (p : CheckParams) (st : St),
        get_ping_url env name server policyName b₁ p st =
          get_ping_url env name server policyName b₂ p st) ∧
    (∀ (env : Env) (name : String) (server policyName : Option String)
        (p : CheckParams) (st st' : St) (r : Option String),
        get_ping_url env name server policyName false p st = (.ok r, st') →
        ∃ k, cacheGet cbank k st'.cache = some r) := by
  constructor
  · intro env name server policyName b₁ b₂ p st
    rfl
  · intro env name server policyName p st st' r h
    unfold get_ping_url at h
    rcases hT : get_ping_url_try env name server policyName p st with ⟨res, st1⟩
    rw [hT] at h
    rcases res with ⟨e, n⟩ | url
    · dsimp only at h
      split at h
      · split at h
        · rename_i u hu
          have h1 : (Except.ok u : Except Err (Option String)) = .ok r :=
            congrArg Prod.fst h
          have h2 := congrArg Prod.snd h
          simp only at h1 h2
          simp only [Except.ok.injEq] at h1
          subst h1
          exact ⟨n, by rw [← h2]; exact hu⟩
        · simp at h
      · simp at h
    · dsimp only at h
      have h1 : (Except.ok url : Except Err (Option String)) = .ok r :=
        congrArg Prod.fst h
      have h2 := congrArg Prod.snd h
      simp only at h1 h2
      simp only [Except.ok.injEq] at h1
      subst h1
      subst h2
      exact get_ping_url_try_ok_cached env name server policyName p st _ _ hT

/-- Witness for the dead-cache-parameter theorem: a concrete successful
local issuance with `cache=false` stores the URL. -/
theorem get_ping_url_cache_param_dead_witness :
    (get_ping_url baseEnv "mycheck" none none false c6Params c6StEmpty =
      get_ping_url baseEnv "mycheck" none none true c6Params c6StEmpty) ∧
    ∃ k, cacheGet cbank k
        (get_ping_url baseEnv "mycheck" none none false c6Params c6StEmpty).2.cache =
      some (some "https://hc.example/ping/u-001") := by
  constructor
  · exact get_ping_url_cache_param_dead.1 baseEnv "mycheck" none none false true
      c6Params c6StEmpty
  · exact get_ping_url_cache_param_dead.2 baseEnv "mycheck" none none c6Params
      c6StEmpty (get_ping_url baseEnv "mycheck" none none false c6Params c6StEmpty).2
      (some "https://hc.example/ping/u-001") rfl

/-! ### C2: cache fallback on handled errors -/

/-- C2: whenever the try block of `get_ping_url` raises a handled error
(`SaltInvocationError` or `CommandExecutionError`, which includes
propagated monitoring-API errors such as a 503), the call returns the
URL previously stored in the cache under the current check-name binding
when such an entry exists, and re-raises the original error when no
entry exists. -/
theorem handled_error_cache_fallback :
    ∀ (env : Env) (name : String) (server policyName : Option String) (b : Bool)
      (p : CheckParams) (st st1 : St) (e : Err) (n : String),
      get_ping_url_try env name server policyName p st = (.error (e, n), st1) →
      e.handled = true →
      ((∀ u, cacheGet cbank n st1.cache = some u →
          get_ping_url env name server policyName b p st = (.ok u, st1)) ∧
        (cacheGet cbank n st1.cache = none →
          get_ping_url env name server policyName b p st = (.error e, st1))) := by
  intro env name server policyName b p st st1 e n hT hH
  constructor
  · intro u hu
    unfold get_ping_url
    rw [hT]
    simp [hH, hu]
  · intro hu
    unfold get_ping_url
    rw [hT]
    simp [hH, hu]

/-- Witness for the cache-fallback theorem: the monitoring API returns
503 on fetch; with a cached entry the cached URL is returned, without one
the 503-derived error is re-raised. -/
theorem handled_error_cache_fallback_witness :
    get_ping_url baseEnv "mycheck" none none true { timeout := some 3600 } c2St =
      (.ok (some "https://x/ping/abc"),
        (get_ping_url_try baseEnv "mycheck" none none { timeout := some 3600 } c2St).2) ∧
    get_ping_url baseEnv "mycheck" none none true { timeout := some 3600 } c2StMiss =
      (.error (.execution "HlcksUnavailableError: maintenance"),
        (get_ping_url_try baseEnv "mycheck" none none { timeout := some 3600 } c2StMiss).2) := by
  constructor
  · exact (handled_error_cache_fallback baseEnv "mycheck" none none true
      { timeout := some 3600 } c2St
      (get_ping_url_try baseEnv "mycheck" none none { timeout := some 3600 } c2St).2
      (.execution "HlcksUnavailableError: maintenance") "mycheck" rfl rfl).1
      (some "https://x/ping/abc") rfl
  · exact (handled_error_cache_fallback baseEnv "mycheck" none none true
      { timeout := some 3600 } c2StMiss
      (get_ping_url_try baseEnv "mycheck" none none { timeout := some 3600 } c2StMiss).2
      (.execution "HlcksUnavailableError: maintenance") "mycheck" rfl rfl).2 rfl

/-! ### C4: issuer set without policy -/

/-- C4 counterexample: with `server` set to a non-local identity and no
policy, but a cache entry present under the check name, `get_ping_url`
returns the cached URL instead of raising the invocation error — the
caller error IS cached-around, contradicting the claim that it is never
masked by the cache fallback.  (No network call happens: the state is
returned unchanged.) -/
theorem issuer_no_policy_cached_around :
    get_ping_url baseEnv "mycheck" (some "srv1") none true {} c4St =
      (.ok (some "https://x/ping/abc"), c4St) := by rfl

/-- C4 amended: an issuance request with `issuer` set (non-local) but no
`policy_name` raises `SaltInvocationError` before any effect (the state,
including the effect trace, is unchanged — so no network call was
attempted); like every handled error it is then subject to the generic
cache fallback, and only when the cache holds no entry under the check
name does the invocation error propagate to the caller. -/
theorem issuer_no_policy_invocation_error :
    ∀ (env : Env) (name server : String) (b : Bool) (p : CheckParams) (st : St),
      server ≠ "" →
      server ≠ env.grainsId →
      get_ping_url_try env name (some server) none p st =
        (.error (.invocation "Remote issuance requires a policy", name), st) ∧
      (cacheGet cbank name st.cache = none →
        get_ping_url env name (some server) none b p st =
          (.error (.invocation "Remote issuance requires a policy"), st)) := by
  intro env name server b p st hs1 hs2
  have hcond : (pyTruthyStr (some server) &&
      some server != some env.grainsId) = true := by
    simp [pyTruthyStr, hs1, hs2]
  have htry : get_ping_url_try env name (some server) none p st =
      (.error (.invocation "Remote issuance requires a policy", name), st) := by
    unfold get_ping_url_try
    rw [if_pos hcond]
    rfl
  refine ⟨htry, fun hc => ?_⟩
  unfold get_ping_url
  rw [htry]
  simp [Err.handled, hc]

/-- Witness for the amended issuer-without-policy theorem at a concrete
input with an empty cache. -/
theorem issuer_no_policy_invocation_error_witness :
    get_ping_url_try baseEnv "mycheck" (some "srv1") none {} c4StMiss =
      (.error (.invocation "Remote issuance requires a policy", "mycheck"), c4StMiss) ∧
    get_ping_url baseEnv "mycheck" (some "srv1") none true {} c4StMiss =
      (.error (.invocation "Remote issuance requires a policy"), c4StMiss) := by
  refine ⟨(issuer_no_policy_invocation_error baseEnv "mycheck" "srv1" true {} c4StMiss
    (by decide) (by decide)).1, (issuer_no_policy_invocation_error baseEnv "mycheck"
    "srv1" true {} c4StMiss (by decide) (by decide)).2 rfl⟩

/-! ### C5: policy denial is terminal when uncached -/

/-- C5: a local issuance call naming a policy whose `minions` matcher
rejects this minion's own identity raises the permission error
(`CommandExecutionError`), and when the request is evaluated for the
first time (no URL-cache entry under the check name) the error
propagates to the caller unmasked, with the state unchanged (nothing was
written or fetched). -/
theorem policy_denial_propagates_when_uncached :
    ∀ (env : Env) (name pname : String) (b : Bool) (p : CheckParams) (st : St)
      (pol : Policy) (m : String),
      pname ≠ "" →
      get_policy env (some pname) = some pol →
      pol.minions = some m →
      match_minions env m env.grainsId = .ok false →
      cacheGet cbank name st.cache = none →
      get_ping_url env name none (some pname) b p st =
        (.error (.execution "minion not permitted to use specified policy"), st) := by
  intro env name pname b p st pol m hpn hpol hm hmatch hcache
  have hpmc : policy_minions_check env ((get_policy env (some pname)).getD {}) =
      .error (.execution "minion not permitted to use specified policy") := by
    rw [hpol]
    unfold policy_minions_check
    dsimp only [Option.getD]
    rw [hm]
    dsimp only
    rw [hmatch]
  have htry : get_ping_url_try env name none (some pname) p st =
      (.error ((.execution "minion not permitted to use specified policy" : Err), name),
        st) := by
    unfold get_ping_url_try
    rw [if_neg (by simp [pyTruthyStr])]
    rw [if_pos (by simp [pyTruthyStr, hpn])]
    rw [hpmc]
  unfold get_ping_url
  rw [htry]
  simp [Err.handled, hcache]

/-- Witness for the policy-denial theorem: the `borgmatic` policy's
matcher `www*` rejects the local identity and the cache is empty, so the
permission error propagates. -/
theorem policy_denial_propagates_when_uncached_witness :
    get_ping_url c5Env "mycheck" none (some "borgmatic") true {} c4StMiss =
      (.error (.execution "minion not permitted to use specified policy"), c4StMiss) := by
  exact policy_denial_propagates_when_uncached c5Env "mycheck" "borgmatic" true {}
    c4StMiss { minions := some "www*", overrides := { timeout := some 3600 } } "www*"
    (by decide) rfl rfl rfl rfl

/-! ### C3: the remote handler never raises and rejects via the envelope -/

/-- C3: `get_ping_url_remote` always returns a structured
`{data, errors}` envelope — in the embedding its return type is
`Envelope` because both try blocks of the source catch broad `Exception`,
so no error value can cross the RPC boundary — and whenever the resolved
policy's `minions` matcher rejects the requester identity it returns
`data = null` with a non-empty `errors` list. -/
theorem remote_handler_matcher_reject :
    ∀ (env : Env) (pname : Option String) (nm : Option String) (p : CheckParams)
      (pub : String) (st : St) (pol : Policy) (m : String),
      get_policy env pname = some pol →
      pol.minions = some m →
      match_minions env m pub = .ok false →
      (get_ping_url_remote env pname nm p (some pub) st).1.data = none ∧
      (get_ping_url_remote env pname nm p (some pub) st).1.errors ≠ [] := by
  intro env pname nm p pub st pol m hpol hm hmatch
  unfold get_ping_url_remote
  rw [hpol]
  dsimp only
  rw [hm]
  dsimp only
  rw [hmatch]
  exact ⟨rfl, by simp⟩

/-- Witness for the matcher-reject theorem: requester `db1` is rejected
by the `www*` matcher of the `borgmatic` policy. -/
theorem remote_handler_matcher_reject_witness :
    (get_ping_url_remote c5Env (some "borgmatic") (some "test") {} (some "db1")
        c4StMiss).1.data = none ∧
    (get_ping_url_remote c5Env (some "borgmatic") (some "test") {} (some "db1")
        c4StMiss).1.errors ≠ [] := by
  exact remote_handler_matcher_reject c5Env (some "borgmatic") (some "test") {} "db1"
    c4StMiss { minions := some "www*", overrides := { timeout := some 3600 } } "www*"
    rfl rfl rfl

/-! ### C9: envelope decoding by the requester -/

/-- C9 counterexample: a delegated call whose response envelope has the
`data` key present but null and an empty `errors` list is NOT treated as
an error: `get_ping_url` returns it as a successful (null) result and
even stores the null under the check name in the cache. -/
theorem null_data_envelope_returned_as_success :
    get_ping_url c9Env "mycheck" (some "srv1") (some "pol") true {} c4StMiss =
      (.ok none,
        { world := c4StMiss.world,
          cache := [((cbank, "mycheck"), none)],
          trace := [.publishCall "srv1" "pol"] }) := by rfl

/-- C9 amended: `_query_remote` treats a missing response, a response
that is not a dict with a `data` key, and a response with non-empty
`errors` as errors; but a well-formed envelope with empty `errors` is
returned successfully with whatever `data` holds — including null. -/
theorem query_remote_envelope_handling :
    ∀ (env : Env) (srv pn nm : String) (p : CheckParams) (st : St),
      (env.publish srv pn nm p = [] →
        (query_remote env srv pn nm p st).1 =
          .error (.invocation "server did not respond. Salt master must permit peers to call the get_ping_url_remote function.")) ∧
      (∀ mid rest, env.publish srv pn nm p = (mid, .invalid) :: rest →
        (query_remote env srv pn nm p st).1 =
          .error (.execution "Received invalid return value from server. See minion log for details")) ∧
      (∀ mid rest e, env.publish srv pn nm p = (mid, .env e) :: rest → e.errors ≠ [] →
        (query_remote env srv pn nm p st).1 =
          .error (.execution ("server reported errors:\n" ++
            String.intercalate "\n" e.errors))) ∧
      (∀ mid rest e, env.publish srv pn nm p = (mid, .env e) :: rest → e.errors = [] →
        (query_remote env srv pn nm p st).1 = .ok e.data) := by
  intro env srv pn nm p st
  refine ⟨fun hp => ?_, fun mid rest hp => ?_, fun mid rest e hp he => ?_,
    fun mid rest e hp he => ?_⟩
  · unfold query_remote
    rw [hp]
  · unfold query_remote
    rw [hp]
  · unfold query_remote
    rw [hp]
    dsimp only
    rw [if_pos (by simp [he])]
  · unfold query_remote
    rw [hp]
    dsimp only
    rw [if_neg (by simp [he])]

/-- Witness for the envelope-handling theorem: four environments whose
peers answer with no response, a malformed response, an error-carrying
envelope, and a successful envelope. -/
theorem query_remote_envelope_handling_witness :
    (query_remote baseEnv "srv1" "pol" "mycheck" {} c4StMiss).1 =
      .error (.invocation "server did not respond. Salt master must permit peers to call the get_ping_url_remote function.") ∧
    (query_remote { baseEnv with publish := fun _ _ _ _ => [("srv1", .invalid)] }
        "srv1" "pol" "mycheck" {} c4StMiss).1 =
      .error (.execution "Received invalid return value from server. See minion log for details") ∧
    (query_remote { baseEnv with publish := fun _ _ _ _ =>
        [("srv1", .env { data := none, errors := ["boom"] })] }
        "srv1" "pol" "mycheck" {} c4StMiss).1 =
      .error (.execution ("server reported errors:\nboom")) ∧
    (query_remote { baseEnv with publish := fun _ _ _ _ =>
        [("srv1", .env { data := some "https://x/ping/abc", errors := [] })] }
        "srv1" "pol" "mycheck" {} c4StMiss).1 = .ok (some "https://x/ping/abc") := by
  refine ⟨(query_remote_envelope_handling baseEnv "srv1" "pol" "mycheck" {}
      c4StMiss).1 rfl, ?_, ?_, ?_⟩
  · exact (query_remote_envelope_handling
      { baseEnv with publish := fun _ _ _ _ => [("srv1", .invalid)] }
      "srv1" "pol" "mycheck" {} c4StMiss).2.1 "srv1" [] rfl
  · exact (query_remote_envelope_handling
      { baseEnv with publish := fun _ _ _ _ =>
        [("srv1", .env { data := none, errors := ["boom"] })] }
      "srv1" "pol" "mycheck" {} c4StMiss).2.2.1 "srv1" []
      { data := none, errors := ["boom"] } rfl (by decide)
  · exact (query_remote_envelope_handling
      { baseEnv with publish := fun _ _ _ _ =>
        [("srv1", .env { data := some "https://x/ping/abc", errors := [] })] }
      "srv1" "pol" "mycheck" {} c4StMiss).2.2.2 "srv1" []
      { data := some "https://x/ping/abc", errors := [] } rfl rfl

/-! ### C8: channel-selector resolution -/

/-- C8: evaluation of the code at the failing input.  With the selector
`channels=[{kind: "email"}]` against live channels
`[email:id1, slack:id2]`, `parse_check_params` joins the identifiers of
ALL channels (`"id1,id2"`), because `list_channels` wraps the absent
`name` filter into `[None]` and then takes the early
`if not kind or name: return channels` exit; the spec-modelled selector
(`specSelectorIds`) resolves to exactly the matching channels (`["id1"]`),
so the code diverges from the claim. -/
theorem channel_selector_resolves_all_channels :
    (parse_check_params (some "mycheck") c8Params none c8St).1 =
      .ok [("name", .str "mycheck"), ("channels", .str "id1,id2")] ∧
    specSelectorIds (some ["email"]) none c8St.world.channels = ["id1"] ∧
    String.intercalate "," (specSelectorIds (some ["email"]) none c8St.world.channels) ≠
      "id1,id2" := by
  refine ⟨rfl, rfl, by decide⟩

/-! ### C1: local issuance returns and caches the ping URL -/

theorem resolveTrace_no_write (items : List ChanItem) (w : World) :
    ∀ e ∈ resolveTrace items w, e = Eff.apiListChannels := by
  induction items with
  | nil => simp [resolveTrace]
  | cons hd tl ih =>
    rcases hd with s | ⟨k, n⟩
    · simpa [resolveTrace] using ih
    · intro e he
      simp only [resolveTrace] at he
      rcases hC : channelsResult k n w with er | cs
      · rw [hC] at he
        simpa using he
      · rw [hC] at he
        simp only [List.mem_cons] at he
        rcases he with rfl | he
        · rfl
        · exact ih e he

theorem parseTrace_no_write (p : CheckParams) (w : World) :
    ∀ e ∈ parseTrace p w, e = Eff.apiListChannels := by
  intro e he
  unfold parseTrace at he
  split at he
  · simp at he
  · unfold parseChannelsTrace at he
    split at he
    · simp at he
    · split at he
      · simp at he
      · exact resolveTrace_no_write _ _ e he
    · split at he
      · simp at he
      · exact resolveTrace_no_write _ _ e he

theorem gmcTrace_no_write (name : String) (p : CheckParams) (w : World) :
    ∀ pl, Eff.apiWrite pl ∉ gmcTrace name p w := by
  intro pl hmem
  unfold gmcTrace at hmem
  split at hmem
  · simp only [List.mem_cons] at hmem
    rcases hmem with h1 | h1
    · cases h1
    · have := parseTrace_no_write p w _ h1
      cases this
  · simp at hmem

/-- C1: a local issuance call (no issuer, no policy).  First conjunct:
when the reconciler's diff against the current remote check is empty, no
write is issued (every new trace entry is a non-write) and the existing
check's ping URL is returned.  Second conjunct: when the check is absent
(diff = "to be created") and the desired parameters parse, a write is
issued and the returned URL is `<base>/ping/<uuid>` for the server's
fresh uuid.  In both cases the URL cache under bank
`hlcks/check_returns`, key = name, afterwards holds exactly the returned
URL. -/
theorem local_issue_url_and_cache :
    (∀ (env : Env) (name : String) (b : Bool) (p : CheckParams) (st st₁ : St)
        (c : Check),
      get_managed_changes name p st = (.ok (.diffs []), st₁) →
      (fetch_check name st).1 = .ok (some c) →
      ∃ st' tl,
        get_ping_url env name none none b p st = (.ok (some c.ping_url), st') ∧
        cacheGet cbank name st'.cache = some (some c.ping_url) ∧
        st'.world = st.world ∧
        st'.trace = st.trace ++ tl ∧
        (∀ pl, Eff.apiWrite pl ∉ tl)) ∧
    (∀ (env : Env) (name : String) (b : Bool) (p : CheckParams) (st st₁ : St)
        (payload : List (String × Val)),
      get_managed_changes name p st = (.ok (.created name), st₁) →
      parseResult (some name) p none st.world = .ok payload →
      ∃ st' tl,
        get_ping_url env name none none b p st =
          (.ok (some (st.world.baseUrl ++ "/ping/" ++ st.world.nextUuid)), st') ∧
        cacheGet cbank name st'.cache =
          some (some (st.world.baseUrl ++ "/ping/" ++ st.world.nextUuid)) ∧
        st'.trace = st.trace ++ tl ∧
        (∃ pl, Eff.apiWrite pl ∈ tl)) := by
  have htry : ∀ (env : Env) (name : String) (policyName : Option String)
      (p : CheckParams) (st : St), policyName = none →
      get_ping_url_try env name none policyName p st = local_issue name p st := by
    intro env name policyName p st hpol
    subst hpol
    unfold get_ping_url_try
    rw [if_neg (by simp [pyTruthyStr])]
    rw [if_neg (by simp [pyTruthyStr])]
  constructor
  · intro env name b p st st₁ c h1 h2
    rw [get_managed_changes_eq] at h1
    have hg : gmcResult name p st.world = .ok (.diffs []) := congrArg Prod.fst h1
    rw [fetch_check_eq] at h2
    have hf : fetchResult name st.world = .ok (some c) := h2
    have hloc : local_issue name p st =
        (.ok (some c.ping_url),
          cacheStore { st with trace := st.trace ++ gmcTrace name p st.world ++
            [.apiListChecks] } cbank name (some c.ping_url)) := by
      unfold local_issue
      rw [get_managed_changes_eq, hg]
      dsimp only
      rw [if_neg (by decide :
        ¬(Changes.truthy (Changes.diffs ([] : List (String × Val × Val))) = true))]
      dsimp only
      rw [fetch_check_eq]
      dsimp only
      rw [hf]
    refine ⟨cacheStore { st with trace := st.trace ++ gmcTrace name p st.world ++
        [.apiListChecks] } cbank name (some c.ping_url),
      gmcTrace name p st.world ++ [.apiListChecks], ?_, ?_, rfl, ?_, ?_⟩
    · unfold get_ping_url
      rw [htry env name none p st rfl, hloc]
    · exact cacheGet_store_self _ _ _ _
    · simp [cacheStore, List.append_assoc]
    · intro pl hmem
      rcases List.mem_append.mp hmem with hm | hm
      · exact gmcTrace_no_write name p st.world pl hm
      · simp at hm
  · intro env name b p st st₁ payload h1 hP
    rw [get_managed_changes_eq] at h1
    have hg : gmcResult name p st.world = .ok (.created name) := congrArg Prod.fst h1
    obtain ⟨hp, hmem, hnd⟩ := parseResult_ok_shape hP
    rcases hfr : fetchResult name st.world with e | ropt
    · rw [gmcResult, hfr] at hg
      simp at hg
    · rcases ropt with _ | cur
      swap
      · rw [gmcResult, hfr] at hg
        dsimp only at hg
        rw [hP] at hg
        dsimp only at hg
        rcases hD : computeDiff cur.fields payload with e | l <;> rw [hD] at hg <;>
          simp at hg
      · rcases hA : st.world.apiFail with _ | msg
        swap
        · rw [fetchResult, checksResult, hA] at hfr
          simp at hfr
        · have hfind0 : find_check_by_name name st.world.checks = .ok none := by
            rw [fetchResult, checksResult, hA] at hfr
            exact hfr
          obtain ⟨hu, hfind⟩ := find_upsert_none hfind0 hp
          have hwres : writeResult name p st.world =
              .ok (createdCheck payload st.world, createdWorld payload st.world) := by
            unfold writeResult
            rw [hP]
            dsimp only
            rw [hA]
            dsimp only
            rw [serverUpsert, hu]
            rfl
          have hfr2 : fetchResult name (createdWorld payload st.world) =
              .ok (some (createdCheck payload st.world)) := by
            rw [fetchResult, checksResult]
            dsimp only [createdWorld]
            rw [hA]
            exact hfind _
          have hloc : local_issue name p st =
              (.ok (some (createdCheck payload st.world).ping_url),
                cacheStore
                  { st with
                    world := createdWorld payload st.world,
                    trace := st.trace ++ gmcTrace name p st.world ++
                      writeTrace name p st.world ++ [.apiListChecks] }
                  cbank name (some (createdCheck payload st.world).ping_url)) := by
            unfold local_issue
            rw [get_managed_changes_eq, hg]
            dsimp only
            rw [if_pos (show Changes.truthy (Changes.created name) = true from rfl)]
            rw [write_check_eq]
            dsimp only
            rw [hwres]
            dsimp only [Except.map]
            rw [fetch_check_eq]
            dsimp only
            rw [hfr2]
          refine ⟨cacheStore
              { st with
                world := createdWorld payload st.world,
                trace := st.trace ++ gmcTrace name p st.world ++
                  writeTrace name p st.world ++ [.apiListChecks] }
              cbank name (some (st.world.baseUrl ++ "/ping/" ++ st.world.nextUuid)),
            gmcTrace name p st.world ++ writeTrace name p st.world ++ [.apiListChecks],
            ?_, ?_, ?_, ?_⟩
          · unfold get_ping_url
            rw [htry env name none p st rfl, hloc]
            rfl
          · exact cacheGet_store_self _ _ _ _
          · simp [cacheStore, List.append_assoc]
          · refine ⟨payload, ?_⟩
            rw [writeTrace, hP]
            simp

/-- Witness for the local-issuance theorem: the existing `mycheck` with a
matching timeout (empty diff, no write), and an absent `mycheck` that a
create materialises with a `/ping/<uuid>` URL. -/
theorem local_issue_url_and_cache_witness :
    (∃ st' tl,
      get_ping_url baseEnv "mycheck" none none true c6Params c6St =
        (.ok (some c6Check.ping_url), st') ∧
      cacheGet cbank "mycheck" st'.cache = some (some c6Check.ping_url) ∧
      st'.world = c6St.world ∧
      st'.trace = c6St.trace ++ tl ∧
      (∀ pl, Eff.apiWrite pl ∉ tl)) ∧
    (∃ st' tl,
      get_ping_url baseEnv "mycheck" none none true c6Params c6StEmpty =
        (.ok (some (c6StEmpty.world.baseUrl ++ "/ping/" ++ c6StEmpty.world.nextUuid)),
          st') ∧
      cacheGet cbank "mycheck" st'.cache =
        some (some (c6StEmpty.world.baseUrl ++ "/ping/" ++ c6StEmpty.world.nextUuid)) ∧
      st'.trace = c6StEmpty.trace ++ tl ∧
      (∃ pl, Eff.apiWrite pl ∈ tl)) := by
  constructor
  · exact local_issue_url_and_cache.1 baseEnv "mycheck" true c6Params c6St
      (get_managed_changes "mycheck" c6Params c6St).2 c6Check rfl rfl
  · exact local_issue_url_and_cache.2 baseEnv "mycheck" true c6Params c6StEmpty
      (get_managed_changes "mycheck" c6Params c6StEmpty).2
      [("name", .str "mycheck"), ("timeout", .int 3600)] rfl rfl

end Hlcks
